import Mathlib

/-!
Shallow embedding of the gauge rendering/scaling engine of
`puppetserver-metrics.py`.  Python floats are modelled as exact rationals
(`ℚ`); fallible operations (attribute errors, division by `None`) are
modelled with `Option`/`Except`.  Each definition mirrors one function or
method of the source file.
-/

namespace PuppetserverMetrics

/-- Round a non-negative rational to the nearest integer, ties to even:
the rounding used by Python's fixed-point `format` on exact values. -/
def rhe (q : ℚ) : ℤ :=
  let f := ⌊q⌋
  let r := q - (f : ℚ)
  if r < 1 / 2 then f
  else if 1 / 2 < r then f + 1
  else if f % 2 = 0 then f else f + 1

/-- Left-pad a string with zeros to the given length. -/
def padZeros (s : String) (p : Nat) : String :=
  String.mk (List.replicate (p - s.length) '0') ++ s

/-- Model of Python `"{value:.{precision}f}".format` on an exact rational:
fixed-point rendering with `p` decimal digits. -/
def formatFixed (q : ℚ) (p : Nat) : String :=
  let sign := if q < 0 then "-" else ""
  let n := (rhe (|q| * 10 ^ p)).toNat
  if p = 0 then sign ++ toString n
  else sign ++ toString (n / 10 ^ p) ++ "." ++ padZeros (toString (n % 10 ^ p)) p

/-- Model of Python `"{:<3.3}".format`: truncate to 3 characters, then
left-justify in a 3-character field. -/
def fmtLJ3 (s : String) : String :=
  let t := s.take 3
  t ++ String.mk (List.replicate (3 - t.length) ' ')

namespace Widget

/-- `Widget.unit`: format a value for output using binary-prefix scaling. -/
def unit (value : ℚ) (precision : Nat) : String :=
  if value > 2 ^ 30 then formatFixed (value / 2 ^ 30) precision ++ "G"
  else if value > 2 ^ 20 then formatFixed (value / 2 ^ 20) precision ++ "M"
  else if value > 2 ^ 10 then formatFixed (value / 2 ^ 10) precision ++ "K"
  else formatFixed value precision

/-- The scaled mantissa string of `Widget.unit` (same branch structure). -/
def unitMantissa (value : ℚ) (precision : Nat) : String :=
  if value > 2 ^ 30 then formatFixed (value / 2 ^ 30) precision
  else if value > 2 ^ 20 then formatFixed (value / 2 ^ 20) precision
  else if value > 2 ^ 10 then formatFixed (value / 2 ^ 10) precision
  else formatFixed value precision

/-- The suffix appended by `Widget.unit` (same branch structure). -/
def unitSuffix (value : ℚ) : String :=
  if value > 2 ^ 30 then "G"
  else if value > 2 ^ 20 then "M"
  else if value > 2 ^ 10 then "K"
  else ""

/-- `Widget.limitlabel`: calculate the limit and label for a value. -/
def limitlabel (value : ℚ) : ℚ × String :=
  if value ≤ 10 then
    let limit : ℚ := (⌈value⌉ : ℚ)
    (limit, fmtLJ3 (formatFixed limit 0))
  else if value ≤ 100 then
    let limit : ℚ := ((⌈value / 10⌉ * 10 : ℤ) : ℚ)
    (limit, fmtLJ3 (formatFixed limit 0))
  else if value ≤ 1000 then
    let limit : ℚ := ((⌈value / 100⌉ * 100 : ℤ) : ℚ)
    (limit, fmtLJ3 (formatFixed limit 0))
  else if value ≤ 1024000 then
    let limit : ℚ := ((⌈value / 2 ^ 10⌉ * 2 ^ 10 : ℤ) : ℚ)
    (limit, fmtLJ3 (formatFixed (limit / 2 ^ 10) 0 ++ "K"))
  else if value ≤ 1024000000 then
    let limit : ℚ := ((⌈value / 2 ^ 20⌉ * 2 ^ 20 : ℤ) : ℚ)
    (limit, fmtLJ3 (formatFixed (limit / 2 ^ 20) 0 ++ "M"))
  else
    let limit : ℚ := ((⌈value / 2 ^ 30⌉ * 2 ^ 30 : ℤ) : ℚ)
    (limit, fmtLJ3 (formatFixed (limit / 2 ^ 30) 0 ++ "G"))

/-- The limit component of `Widget.limitlabel`. -/
def limitOf (value : ℚ) : ℚ := (limitlabel value).1

/-- The mutable per-widget limit fields `_upper_limit` and `_lower_limit`
(`None` before the first limit call). -/
structure State where
  upper : Option ℚ
  lower : Option ℚ
  deriving DecidableEq

/-- `Widget.__init__` sets `_upper_limit = None` and `_lower_limit = None`. -/
def initState : State := ⟨none, none⟩

/-- The update guard `(stored is None) or (value > stored)` shared by the
limit methods. -/
def limitNeedsUpd (cur : Option ℚ) (value : ℚ) : Bool :=
  match cur with
  | none => true
  | some c => decide (c < value)

/-- `Widget.upper_limit`: set the limit for the upper widget part when the
guard fires. -/
def upper_limit (s : State) (value : ℚ) : State :=
  if limitNeedsUpd s.upper value then { s with upper := some (limitlabel value).1 }
  else s

/-- `Widget.lower_limit`: set the limit for the lower widget part when the
guard fires. -/
def lower_limit (s : State) (value : ℚ) : State :=
  if limitNeedsUpd s.lower value then { s with lower := some (limitlabel value).1 }
  else s

/-- `Widget.limit`: set the limit for both widget parts when either half's
guard fires. -/
def limit (s : State) (value : ℚ) : State :=
  if limitNeedsUpd s.upper value || limitNeedsUpd s.lower value then
    { upper := some (limitlabel value).1, lower := some (limitlabel value).1 }
  else s

/-- The fill fraction computed in `Widget.uvalue` / `Widget.lvalue`:
`(value / limit) if (value > 0) else 0.0`. -/
def pct (value currentLimit : ℚ) : ℚ :=
  if 0 < value then value / currentLimit else 0

/-- Whether bar cell `x` is drawn filled: `(x / 26) < pct`. -/
def fillCell (p : ℚ) (x : Nat) : Bool :=
  decide ((x : ℚ) / 26 < p)

/-- Number of filled cells in the 26-cell bar track. -/
def fillCount (p : ℚ) : Nat :=
  (List.range 26).countP (fillCell p)

/-- `Widget.uvalue`: widen the upper limit, then compute the fill fraction
for the upper bar.  Returns the new state and the fraction. -/
def uvalue (s : State) (value : ℚ) : State × ℚ :=
  let s' := upper_limit s value
  (s', pct value (s'.upper.getD 0))

/-- `Widget.lvalue`: widen the lower limit, then compute the fill fraction
for the lower bar.  Returns the new state and the fraction. -/
def lvalue (s : State) (value : ℚ) : State × ℚ :=
  let s' := lower_limit s value
  (s', pct value (s'.lower.getD 0))

end Widget

/-- One call to a per-half limit method. -/
inductive HalfCall where
  | upper (v : ℚ)
  | lower (v : ℚ)

/-- Apply one per-half limit call to a widget state. -/
def applyCall (s : Widget.State) : HalfCall → Widget.State
  | .upper v => Widget.upper_limit s v
  | .lower v => Widget.lower_limit s v

/-- A JSON-like value as returned by the metrics endpoint: a number, a
string, or a nested keyed object. -/
inductive JVal where
  | num : ℚ → JVal
  | str : String → JVal
  | obj : List (String × JVal) → JVal

/-- Dictionary lookup (`dict.get(key)`): `none` when the key is missing. -/
def lookupKey (es : List (String × JVal)) (k : String) : Option JVal :=
  match es with
  | [] => none
  | (k', v) :: rest => if k' = k then some v else lookupKey rest k

namespace Metric

/-- The timestamp fields of a `Metric` (`None` before the first refresh). -/
structure State where
  last_timestamp : Option ℚ
  curr_timestamp : Option ℚ

/-- `Metric.timedelta`: the time difference between current and last
metrics, or `None` when either timestamp is missing. -/
def timedelta (s : State) : Option ℚ :=
  match s.last_timestamp, s.curr_timestamp with
  | some l, some c => some (c - l)
  | _, _ => none

/-- The timestamp update performed by `Metric.refresh` on a successful
fetch: `last := curr; curr := metrics['timestamp']`. -/
def refreshStamps (s : State) (ts : ℚ) : State :=
  { last_timestamp := s.curr_timestamp, curr_timestamp := some ts }

/-- `Metric.value`: the loop body digging into the nested metrics value:
`if value is not None: value = value.get(key)`.  The `.error` result
models the uncaught attribute error raised when `.get` is called on a
non-dict. -/
def digLoop (v : Option JVal) (keys : List String) : Except Unit (Option JVal) :=
  match keys with
  | [] => .ok v
  | k :: rest =>
    match v with
    | none => digLoop none rest
    | some (JVal.obj es) => digLoop (lookupKey es k) rest
    | some _ => .error ()

/-- `Metric.value`: dig into `self.metrics.get('value')` by successive
key lookups. -/
def value (metrics : List (String × JVal)) (keys : List String) :
    Except Unit (Option JVal) :=
  digLoop (lookupKey metrics "value") keys

end Metric

namespace OperatingSystemMetrics

/-- The state of an `OperatingSystemMetrics` instance relevant to the CPU
rate: the inherited timestamps and the `prev_value` baseline. -/
structure State where
  base : Metric.State
  prev_value : Option ℚ

/-- `OperatingSystemMetrics.process_cpu_time`: reads the raw CPU-time
counter (nanoseconds), converts it to seconds, reports `0` on the first
tick with a present value and `(value - prev) / timedelta` afterwards, and
updates `prev_value` on every tick with a present value.  The outer
`none` models the uncaught error raised when `timedelta` returns `None`
or is zero.  Returns the reported delta and the updated state. -/
def process_cpu_time (s : State) (raw : Option ℚ) : Option (Option ℚ × State) :=
  match raw with
  | none => some (none, s)
  | some r =>
    let value := r / 1000000000
    match s.prev_value with
    | none => some (some 0, { s with prev_value := some value })
    | some p =>
      match Metric.timedelta s.base with
      | none => none
      | some td =>
        if td = 0 then none
        else some (some ((value - p) / td), { s with prev_value := some value })

end OperatingSystemMetrics

/-! ### Arithmetic facts about `Widget.limitlabel` -/

namespace Widget

lemma limitOf_b1 {v : ℚ} (h : v ≤ 10) : limitOf v = (⌈v⌉ : ℚ) := by
  simp [limitOf, limitlabel, h]

lemma limitOf_b2 {v : ℚ} (h1 : ¬ v ≤ 10) (h2 : v ≤ 100) :
    limitOf v = (⌈v / 10⌉ : ℚ) * 10 := by
  simp only [limitOf, limitlabel, h1, h2, if_true, if_false, ite_true, ite_false]
  push_cast
  ring

lemma limitOf_b3 {v : ℚ} (h2 : ¬ v ≤ 100) (h3 : v ≤ 1000) :
    limitOf v = (⌈v / 100⌉ : ℚ) * 100 := by
  have h1 : ¬ v ≤ 10 := fun hh => h2 (by linarith)
  simp only [limitOf, limitlabel, h1, h2, h3, if_true, if_false, ite_true, ite_false]
  push_cast
  ring

lemma limitOf_b4 {v : ℚ} (h3 : ¬ v ≤ 1000) (h4 : v ≤ 1024000) :
    limitOf v = (⌈v / 2 ^ 10⌉ : ℚ) * 2 ^ 10 := by
  have h1 : ¬ v ≤ 10 := fun hh => h3 (by linarith)
  have h2 : ¬ v ≤ 100 := fun hh => h3 (by linarith)
  simp only [limitOf, limitlabel, h1, h2, h3, h4, if_true, if_false, ite_true, ite_false]
  push_cast
  ring

lemma limitOf_b5 {v : ℚ} (h4 : ¬ v ≤ 1024000) (h5 : v ≤ 1024000000) :
    limitOf v = (⌈v / 2 ^ 20⌉ : ℚ) * 2 ^ 20 := by
  have h1 : ¬ v ≤ 10 := fun hh => h4 (by linarith)
  have h2 : ¬ v ≤ 100 := fun hh => h4 (by linarith)
  have h3 : ¬ v ≤ 1000 := fun hh => h4 (by linarith)
  simp only [limitOf, limitlabel, h1, h2, h3, h4, h5, if_true, if_false, ite_true, ite_false]
  push_cast
  ring

lemma limitOf_b6 {v : ℚ} (h5 : ¬ v ≤ 1024000000) :
    limitOf v = (⌈v / 2 ^ 30⌉ : ℚ) * 2 ^ 30 := by
  have h1 : ¬ v ≤ 10 := fun hh => h5 (by linarith)
  have h2 : ¬ v ≤ 100 := fun hh => h5 (by linarith)
  have h3 : ¬ v ≤ 1000 := fun hh => h5 (by linarith)
  have h4 : ¬ v ≤ 1024000 := fun hh => h5 (by linarith)
  simp only [limitOf, limitlabel, h1, h2, h3, h4, h5, if_true, if_false, ite_true, ite_false]
  push_cast
  ring

lemma le_ceil_div_mul {v k : ℚ} (hk : 0 < k) : v ≤ (⌈v / k⌉ : ℚ) * k := by
  have h1 : v / k ≤ (⌈v / k⌉ : ℚ) := Int.le_ceil _
  have h2 := mul_le_mul_of_nonneg_right h1 hk.le
  rwa [div_mul_cancel₀ _ hk.ne'] at h2

lemma ceil_div_mul_le {v k : ℚ} {n : ℤ} (hk : 0 < k) (h : v ≤ n * k) :
    (⌈v / k⌉ : ℚ) * k ≤ (n : ℚ) * k := by
  have h1 : v / k ≤ (n : ℚ) := by rw [div_le_iff₀ hk]; exact h
  have h2 : ⌈v / k⌉ ≤ n := Int.ceil_le.mpr h1
  have h3 : (⌈v / k⌉ : ℚ) ≤ (n : ℚ) := by exact_mod_cast h2
  exact mul_le_mul_of_nonneg_right h3 hk.le

lemma ceil_div_mul_lb {v k : ℚ} {n : ℤ} (hk : 0 < k) (h : (n : ℚ) * k < v) :
    ((n + 1 : ℤ) : ℚ) * k ≤ (⌈v / k⌉ : ℚ) * k := by
  have h1 : (n : ℚ) < v / k := by rw [lt_div_iff₀ hk]; exact h
  have h2 : n + 1 ≤ ⌈v / k⌉ := Int.lt_ceil.mpr h1
  have h3 : ((n + 1 : ℤ) : ℚ) ≤ (⌈v / k⌉ : ℚ) := by exact_mod_cast h2
  exact mul_le_mul_of_nonneg_right h3 hk.le

lemma ceil_div_mul_mono {v1 v2 k : ℚ} (hk : 0 < k) (h : v1 ≤ v2) :
    (⌈v1 / k⌉ : ℚ) * k ≤ (⌈v2 / k⌉ : ℚ) * k := by
  have h1 : v1 / k ≤ v2 / k := (div_le_div_iff_of_pos_right hk).mpr h
  have h2 : ⌈v1 / k⌉ ≤ ⌈v2 / k⌉ := Int.ceil_mono h1
  have h3 : (⌈v1 / k⌉ : ℚ) ≤ (⌈v2 / k⌉ : ℚ) := by exact_mod_cast h2
  exact mul_le_mul_of_nonneg_right h3 hk.le

/-- The produced limit bounds the value above, for every value. -/
lemma limit_ge (v : ℚ) : v ≤ limitOf v := by
  by_cases h1 : v ≤ 10
  · rw [limitOf_b1 h1]; exact Int.le_ceil v
  · by_cases h2 : v ≤ 100
    · rw [limitOf_b2 h1 h2]; exact le_ceil_div_mul (by norm_num)
    · by_cases h3 : v ≤ 1000
      · rw [limitOf_b3 h2 h3]; exact le_ceil_div_mul (by norm_num)
      · by_cases h4 : v ≤ 1024000
        · rw [limitOf_b4 h3 h4]; exact le_ceil_div_mul (by norm_num)
        · by_cases h5 : v ≤ 1024000000
          · rw [limitOf_b5 h4 h5]; exact le_ceil_div_mul (by norm_num)
          · rw [limitOf_b6 h5]; exact le_ceil_div_mul (by norm_num)

lemma limitOf_le_10 {v : ℚ} (h : v ≤ 10) : limitOf v ≤ 10 := by
  rw [limitOf_b1 h]
  have : ⌈v⌉ ≤ (10 : ℤ) := Int.ceil_le.mpr (by exact_mod_cast h)
  exact_mod_cast this

lemma limitOf_le_100 {v : ℚ} (h : v ≤ 100) : limitOf v ≤ 100 := by
  by_cases h1 : v ≤ 10
  · linarith [limitOf_le_10 h1]
  · rw [limitOf_b2 h1 h]
    have := ceil_div_mul_le (v := v) (k := 10) (n := 10) (by norm_num) (by push_cast; linarith)
    push_cast at this
    linarith

lemma limitOf_le_1000 {v : ℚ} (h : v ≤ 1000) : limitOf v ≤ 1000 := by
  by_cases h2 : v ≤ 100
  · linarith [limitOf_le_100 h2]
  · rw [limitOf_b3 h2 h]
    have := ceil_div_mul_le (v := v) (k := 100) (n := 10) (by norm_num) (by push_cast; linarith)
    push_cast at this
    linarith

lemma limitOf_le_1024000 {v : ℚ} (h : v ≤ 1024000) : limitOf v ≤ 1024000 := by
  by_cases h3 : v ≤ 1000
  · linarith [limitOf_le_1000 h3]
  · rw [limitOf_b4 h3 h]
    have := ceil_div_mul_le (v := v) (k := 2 ^ 10) (n := 1000) (by norm_num) (by push_cast; linarith)
    push_cast at this
    linarith

lemma limitOf_le_b5max {v : ℚ} (h : v ≤ 1024000000) : limitOf v ≤ 1024458752 := by
  by_cases h4 : v ≤ 1024000
  · linarith [limitOf_le_1024000 h4]
  · rw [limitOf_b5 h4 h]
    have := ceil_div_mul_le (v := v) (k := 2 ^ 20) (n := 977) (by norm_num) (by push_cast; linarith)
    push_cast at this
    linarith

lemma limitOf_ge_2p30 {v : ℚ} (h : ¬ v ≤ 1024000000) : 1073741824 ≤ limitOf v := by
  rw [limitOf_b6 h]
  have := ceil_div_mul_lb (v := v) (k := 2 ^ 30) (n := 0) (by norm_num) (by push_cast; linarith)
  push_cast at this
  linarith

lemma limitOf_ge_2p20 {v : ℚ} (h : ¬ v ≤ 1024000) : 1048576 ≤ limitOf v := by
  by_cases h5 : v ≤ 1024000000
  · rw [limitOf_b5 h h5]
    have := ceil_div_mul_lb (v := v) (k := 2 ^ 20) (n := 0) (by norm_num) (by push_cast; linarith)
    push_cast at this
    linarith
  · linarith [limitOf_ge_2p30 h5]

lemma limitOf_ge_1024 {v : ℚ} (h : ¬ v ≤ 1000) : 1024 ≤ limitOf v := by
  by_cases h4 : v ≤ 1024000
  · rw [limitOf_b4 h h4]
    have := ceil_div_mul_lb (v := v) (k := 2 ^ 10) (n := 0) (by norm_num) (by push_cast; linarith)
    push_cast at this
    linarith
  · linarith [limitOf_ge_2p20 h4]

lemma limitOf_ge_200 {v : ℚ} (h : ¬ v ≤ 100) : 200 ≤ limitOf v := by
  by_cases h3 : v ≤ 1000
  · rw [limitOf_b3 h h3]
    have := ceil_div_mul_lb (v := v) (k := 100) (n := 1) (by norm_num) (by push_cast; linarith)
    push_cast at this
    linarith
  · linarith [limitOf_ge_1024 h3]

lemma limitOf_ge_20 {v : ℚ} (h : ¬ v ≤ 10) : 20 ≤ limitOf v := by
  by_cases h2 : v ≤ 100
  · rw [limitOf_b2 h h2]
    have := ceil_div_mul_lb (v := v) (k := 10) (n := 1) (by norm_num) (by push_cast; linarith)
    push_cast at this
    linarith
  · linarith [limitOf_ge_200 h2]

/-- The limit component of `limitlabel` is monotone. -/
lemma limitOf_mono {v1 v2 : ℚ} (h : v1 ≤ v2) : limitOf v1 ≤ limitOf v2 := by
  by_cases g1 : v2 ≤ 10
  · rw [limitOf_b1 (le_trans h g1), limitOf_b1 g1]
    exact_mod_cast Int.ceil_mono h
  · by_cases g2 : v2 ≤ 100
    · by_cases f1 : v1 ≤ 10
      · linarith [limitOf_le_10 f1, limitOf_ge_20 g1]
      · rw [limitOf_b2 f1 (le_trans h g2), limitOf_b2 g1 g2]
        exact ceil_div_mul_mono (by norm_num) h
    · by_cases g3 : v2 ≤ 1000
      · by_cases f2 : v1 ≤ 100
        · linarith [limitOf_le_100 f2, limitOf_ge_200 g2]
        · rw [limitOf_b3 f2 (le_trans h g3), limitOf_b3 g2 g3]
          exact ceil_div_mul_mono (by norm_num) h
      · by_cases g4 : v2 ≤ 1024000
        · by_cases f3 : v1 ≤ 1000
          · linarith [limitOf_le_1000 f3, limitOf_ge_1024 g3]
          · rw [limitOf_b4 f3 (le_trans h g4), limitOf_b4 g3 g4]
            exact ceil_div_mul_mono (by norm_num) h
        · by_cases g5 : v2 ≤ 1024000000
          · by_cases f4 : v1 ≤ 1024000
            · linarith [limitOf_le_1024000 f4, limitOf_ge_2p20 g4]
            · rw [limitOf_b5 f4 (le_trans h g5), limitOf_b5 g4 g5]
              exact ceil_div_mul_mono (by norm_num) h
          · by_cases f5 : v1 ≤ 1024000000
            · linarith [limitOf_le_b5max f5, limitOf_ge_2p30 g5]
            · rw [limitOf_b6 f5, limitOf_b6 g5]
              exact ceil_div_mul_mono (by norm_num) h

lemma limitlabel_fst (v : ℚ) : (limitlabel v).1 = limitOf v := rfl

lemma upper_limit_of_none {s : State} (h : s.upper = none) (v : ℚ) :
    upper_limit s v = { s with upper := some (limitOf v) } := by
  simp [upper_limit, limitNeedsUpd, h, limitOf]

lemma upper_limit_of_lt {s : State} {c v : ℚ} (h : s.upper = some c) (hlt : c < v) :
    upper_limit s v = { s with upper := some (limitOf v) } := by
  simp [upper_limit, limitNeedsUpd, h, hlt, limitOf]

lemma upper_limit_of_ge {s : State} {c v : ℚ} (h : s.upper = some c) (hge : v ≤ c) :
    upper_limit s v = s := by
  simp [upper_limit, limitNeedsUpd, h, not_lt.mpr hge]

lemma lower_limit_of_none {s : State} (h : s.lower = none) (v : ℚ) :
    lower_limit s v = { s with lower := some (limitOf v) } := by
  simp [lower_limit, limitNeedsUpd, h, limitOf]

lemma lower_limit_of_lt {s : State} {c v : ℚ} (h : s.lower = some c) (hlt : c < v) :
    lower_limit s v = { s with lower := some (limitOf v) } := by
  simp [lower_limit, limitNeedsUpd, h, hlt, limitOf]

lemma lower_limit_of_ge {s : State} {c v : ℚ} (h : s.lower = some c) (hge : v ≤ c) :
    lower_limit s v = s := by
  simp [lower_limit, limitNeedsUpd, h, not_lt.mpr hge]

end Widget

/-- A per-half limit call never loses or shrinks the upper half's stored limit. -/
lemma applyCall_upper_mono (s : Widget.State) (call : HalfCall) {c : ℚ}
    (h : s.upper = some c) :
    ∃ c', (applyCall s call).upper = some c' ∧ c ≤ c' := by
  cases call with
  | lower v =>
    refine ⟨c, ?_, le_refl c⟩
    show (Widget.lower_limit s v).upper = some c
    unfold Widget.lower_limit
    split
    · simpa using h
    · exact h
  | upper v =>
    show ∃ c', (Widget.upper_limit s v).upper = some c' ∧ c ≤ c'
    by_cases hlt : c < v
    · rw [Widget.upper_limit_of_lt h hlt]
      exact ⟨Widget.limitOf v, rfl, le_trans hlt.le (Widget.limit_ge v)⟩
    · rw [Widget.upper_limit_of_ge h (not_lt.mp hlt)]
      exact ⟨c, h, le_refl c⟩

/-- A per-half limit call never loses or shrinks the lower half's stored limit. -/
lemma applyCall_lower_mono (s : Widget.State) (call : HalfCall) {c : ℚ}
    (h : s.lower = some c) :
    ∃ c', (applyCall s call).lower = some c' ∧ c ≤ c' := by
  cases call with
  | upper v =>
    refine ⟨c, ?_, le_refl c⟩
    show (Widget.upper_limit s v).lower = some c
    unfold Widget.upper_limit
    split
    · simpa using h
    · exact h
  | lower v =>
    show ∃ c', (Widget.lower_limit s v).lower = some c' ∧ c ≤ c'
    by_cases hlt : c < v
    · rw [Widget.lower_limit_of_lt h hlt]
      exact ⟨Widget.limitOf v, rfl, le_trans hlt.le (Widget.limit_ge v)⟩
    · rw [Widget.lower_limit_of_ge h (not_lt.mp hlt)]
      exact ⟨c, h, le_refl c⟩

lemma foldl_upper_mono (calls : List HalfCall) :
    ∀ (s : Widget.State) (c : ℚ), s.upper = some c →
      ∃ c', (calls.foldl applyCall s).upper = some c' ∧ c ≤ c' := by
  induction calls with
  | nil => exact fun s c h => ⟨c, h, le_refl c⟩
  | cons hd tl ih =>
    intro s c h
    obtain ⟨c1, h1, hc1⟩ := applyCall_upper_mono s hd h
    obtain ⟨c', h', hc'⟩ := ih (applyCall s hd) c1 h1
    exact ⟨c', by simpa using h', le_trans hc1 hc'⟩

lemma foldl_lower_mono (calls : List HalfCall) :
    ∀ (s : Widget.State) (c : ℚ), s.lower = some c →
      ∃ c', (calls.foldl applyCall s).lower = some c' ∧ c ≤ c' := by
  induction calls with
  | nil => exact fun s c h => ⟨c, h, le_refl c⟩
  | cons hd tl ih =>
    intro s c h
    obtain ⟨c1, h1, hc1⟩ := applyCall_lower_mono s hd h
    obtain ⟨c', h', hc'⟩ := ih (applyCall s hd) c1 h1
    exact ⟨c', by simpa using h', le_trans hc1 hc'⟩

/-! ### Claim C1 -/

/-- C1: for every value `≥ 0`, the limit component returned by
`Widget.limitlabel` satisfies `limit ≥ value` (ceiling semantics). -/
theorem limitlabel_ceiling (value : ℚ) (h : 0 ≤ value) :
    value ≤ (Widget.limitlabel value).1 :=
  Widget.limit_ge value

/-- Witness for C1 at `value = 3`. -/
theorem limitlabel_ceiling_witness :
    0 ≤ (3 : ℚ) ∧ (3 : ℚ) ≤ (Widget.limitlabel 3).1 :=
  ⟨by norm_num, limitlabel_ceiling 3 (by norm_num)⟩

/-! ### Claim C10 -/

/-- C10: the limit component of `Widget.limitlabel` is monotone for
`0 ≤ v1 ≤ v2`, including across all bucket boundaries. -/
theorem limitlabel_limit_mono (v1 v2 : ℚ) (h0 : 0 ≤ v1) (h : v1 ≤ v2) :
    (Widget.limitlabel v1).1 ≤ (Widget.limitlabel v2).1 :=
  Widget.limitOf_mono h

/-- Witness for C10 at `v1 = 5`, `v2 = 2000000`. -/
theorem limitlabel_limit_mono_witness :
    0 ≤ (5 : ℚ) ∧ (5 : ℚ) ≤ 2000000 ∧
      (Widget.limitlabel 5).1 ≤ (Widget.limitlabel 2000000).1 :=
  ⟨by norm_num, by norm_num, limitlabel_limit_mono 5 2000000 (by norm_num) (by norm_num)⟩

/-! ### Claim C2 -/

unseal Rat.inv Rat.mul Rat.add Rat.sub in
/-- Counterexample to C2 as stated: with `v1 = 1024000000 ≤ v2 = 1024100000`,
the stored limit after both `upper_limit` calls is `977 * 2^20 = 1024458752`
(the second call does not fire because `v2` does not exceed the stored
limit), while `limitlabel (max v1 v2)` yields `2^30 = 1073741824`. -/
theorem upper_limit_seq_cex :
    (Widget.upper_limit (Widget.upper_limit Widget.initState 1024000000) 1024100000).upper
      ≠ some (Widget.limitlabel (max 1024000000 1024100000)).1 := by decide

/-- C2 amended: applying `upper_limit` (resp. `lower_limit`) with
`0 ≤ v1 ≤ v2` to a fresh gauge half stores `limitlabel (max v1 v2)` when
`v2` exceeds the limit stored by the first call, and otherwise keeps the
first call's limit; in both cases the stored limit never shrinks and
remains `≥ v2`. -/
theorem upper_limit_seq_amended (v1 v2 : ℚ) (h0 : 0 ≤ v1) (h12 : v1 ≤ v2) :
    (∃ c, (Widget.upper_limit (Widget.upper_limit Widget.initState v1) v2).upper = some c ∧
      c = (if (Widget.limitlabel v1).1 < v2 then (Widget.limitlabel (max v1 v2)).1
           else (Widget.limitlabel v1).1) ∧
      (Widget.limitlabel v1).1 ≤ c ∧ v2 ≤ c) ∧
    (∃ c, (Widget.lower_limit (Widget.lower_limit Widget.initState v1) v2).lower = some c ∧
      c = (if (Widget.limitlabel v1).1 < v2 then (Widget.limitlabel (max v1 v2)).1
           else (Widget.limitlabel v1).1) ∧
      (Widget.limitlabel v1).1 ≤ c ∧ v2 ≤ c) := by
  have hmax : max v1 v2 = v2 := max_eq_right h12
  simp only [Widget.limitlabel_fst, hmax]
  constructor
  · rw [Widget.upper_limit_of_none rfl v1]
    by_cases hlt : Widget.limitOf v1 < v2
    · rw [Widget.upper_limit_of_lt rfl hlt]
      exact ⟨Widget.limitOf v2, rfl, (if_pos hlt).symm,
        le_trans hlt.le (Widget.limit_ge v2), Widget.limit_ge v2⟩
    · rw [Widget.upper_limit_of_ge rfl (not_lt.mp hlt)]
      exact ⟨Widget.limitOf v1, rfl, (if_neg hlt).symm, le_refl _, not_lt.mp hlt⟩
  · rw [Widget.lower_limit_of_none rfl v1]
    by_cases hlt : Widget.limitOf v1 < v2
    · rw [Widget.lower_limit_of_lt rfl hlt]
      exact ⟨Widget.limitOf v2, rfl, (if_pos hlt).symm,
        le_trans hlt.le (Widget.limit_ge v2), Widget.limit_ge v2⟩
    · rw [Widget.lower_limit_of_ge rfl (not_lt.mp hlt)]
      exact ⟨Widget.limitOf v1, rfl, (if_neg hlt).symm, le_refl _, not_lt.mp hlt⟩

/-- Witness for the amended C2 at `v1 = 15`, `v2 = 450`. -/
theorem upper_limit_seq_amended_witness :
    0 ≤ (15 : ℚ) ∧ (15 : ℚ) ≤ 450 ∧
      (∃ c, (Widget.upper_limit (Widget.upper_limit Widget.initState 15) 450).upper
          = some c ∧
        c = (if (Widget.limitlabel 15).1 < 450 then (Widget.limitlabel (max 15 450)).1
             else (Widget.limitlabel 15).1) ∧
        (Widget.limitlabel 15).1 ≤ c ∧ (450 : ℚ) ≤ c) :=
  ⟨by norm_num, by norm_num,
    (upper_limit_seq_amended 15 450 (by norm_num) (by norm_num)).1⟩

/-! ### Claim C3 -/

unseal Rat.inv Rat.mul Rat.add Rat.sub in
/-- Counterexample to C3 as stated: after `upper_limit 2000` the upper
half's stored limit is `2048`; the combined `Widget.limit 5` then fires
(the lower half is unset), overwrites both halves with `limitlabel 5 = 5`,
and thereby shrinks the upper half's stored limit from `2048` to `5`. -/
theorem limit_both_shrinks_cex :
    (Widget.upper_limit Widget.initState 2000).upper = some 2048 ∧
    (Widget.limit (Widget.upper_limit Widget.initState 2000) 5).upper = some 5 ∧
    ((5 : ℚ) < 2048) := by decide

/-- C3 amended: the per-half methods `upper_limit` and `lower_limit`
update a stored limit only when the new value exceeds it (or it is unset),
and under every sequence of per-half calls neither half's stored limit
ever decreases.  (The combined `Widget.limit` method does not satisfy
this: it overwrites both halves whenever either half's guard fires, which
can shrink the other half's stored limit.) -/
theorem half_limits_monotone :
    (∀ (s : Widget.State) (c v : ℚ), s.upper = some c → v ≤ c →
      Widget.upper_limit s v = s) ∧
    (∀ (s : Widget.State) (c v : ℚ), s.lower = some c → v ≤ c →
      Widget.lower_limit s v = s) ∧
    (∀ (calls : List HalfCall) (s : Widget.State) (c : ℚ), s.upper = some c →
      ∃ c', (calls.foldl applyCall s).upper = some c' ∧ c ≤ c') ∧
    (∀ (calls : List HalfCall) (s : Widget.State) (c : ℚ), s.lower = some c →
      ∃ c', (calls.foldl applyCall s).lower = some c' ∧ c ≤ c') :=
  ⟨fun _ _ _ h hge => Widget.upper_limit_of_ge h hge,
   fun _ _ _ h hge => Widget.lower_limit_of_ge h hge,
   fun calls s c h => foldl_upper_mono calls s c h,
   fun calls s c h => foldl_lower_mono calls s c h⟩

/-- Witness for the amended C3: a no-op non-exceeding call, and a mixed
call sequence that can only grow the stored upper limit `2048`. -/
theorem half_limits_monotone_witness :
    (Widget.upper_limit ⟨some 2048, none⟩ 5 = ⟨some 2048, none⟩) ∧
    (∃ c', ([HalfCall.upper 5, HalfCall.lower 7].foldl applyCall
        ⟨some 2048, some 1⟩).upper = some c' ∧ (2048 : ℚ) ≤ c') :=
  ⟨half_limits_monotone.1 ⟨some 2048, none⟩ 2048 5 rfl (by norm_num),
   half_limits_monotone.2.2.1 [HalfCall.upper 5, HalfCall.lower 7]
     ⟨some 2048, some 1⟩ 2048 rfl⟩

/-! ### Claim C4 -/

unseal Rat.inv Rat.mul Rat.add Rat.sub in
/-- Counterexample to C4 as stated: `limitlabel 3500000` does not return
limit `3145728`; `ceil (3500000 / 2^20) = 4`, so the limit is `4194304`. -/
theorem limitlabel_3500000_cex : (Widget.limitlabel 3500000).1 ≠ 3145728 := by decide

unseal Rat.inv Rat.mul Rat.add Rat.sub in
/-- C4 amended: `limitlabel 3500000` yields limit `4194304`
(`= ceil (3500000 / 2^20) * 2^20`) and the 3-character label `"4M "`;
`unit 2048 1` yields `"2.0K"`. -/
theorem limitlabel_3500000_amended :
    Widget.limitlabel 3500000 = (4194304, "4M ") ∧ Widget.unit 2048 1 = "2.0K" := by
  decide

/-! ### Claim C5 -/

/-- C5: `Widget.unit` splits into a scaled mantissa and a suffix, and the
suffix is `G` iff `v > 2^30`, `M` iff `2^20 < v ≤ 2^30`, `K` iff
`2^10 < v ≤ 2^20`, and empty otherwise; exactly one of the four classes
applies to each value. -/
theorem unit_suffix_classes (v : ℚ) (p : ℕ) :
    Widget.unit v p = Widget.unitMantissa v p ++ Widget.unitSuffix v ∧
    (Widget.unitSuffix v = "G" ↔ 2 ^ 30 < v) ∧
    (Widget.unitSuffix v = "M" ↔ 2 ^ 20 < v ∧ v ≤ 2 ^ 30) ∧
    (Widget.unitSuffix v = "K" ↔ 2 ^ 10 < v ∧ v ≤ 2 ^ 20) ∧
    (Widget.unitSuffix v = "" ↔ v ≤ 2 ^ 10) ∧
    (((if 2 ^ 30 < v then 1 else 0) + (if 2 ^ 20 < v ∧ v ≤ 2 ^ 30 then 1 else 0)
      + (if 2 ^ 10 < v ∧ v ≤ 2 ^ 20 then 1 else 0)
      + (if v ≤ 2 ^ 10 then 1 else 0) : ℕ) = 1) := by
  have e21 : (2 : ℚ) ^ 10 ≤ 2 ^ 20 := by norm_num
  have e32 : (2 : ℚ) ^ 20 ≤ 2 ^ 30 := by norm_num
  have hsplit : Widget.unit v p = Widget.unitMantissa v p ++ Widget.unitSuffix v := by
    unfold Widget.unit Widget.unitMantissa Widget.unitSuffix
    split_ifs <;> simp
  rcases le_or_lt v (2 ^ 10) with a1 | a1
  · have hG : ¬ v > 2 ^ 30 := not_lt.mpr (by linarith)
    have hM : ¬ v > 2 ^ 20 := not_lt.mpr (by linarith)
    have hK : ¬ v > 2 ^ 10 := not_lt.mpr a1
    have hs : Widget.unitSuffix v = "" := by
      unfold Widget.unitSuffix
      rw [if_neg hG, if_neg hM, if_neg hK]
    refine ⟨hsplit, ?_, ?_, ?_, ?_, ?_⟩
    · rw [hs]; exact iff_of_false (by decide) hG
    · rw [hs]; exact iff_of_false (by decide) (fun hc => hM hc.1)
    · rw [hs]; exact iff_of_false (by decide) (fun hc => hK hc.1)
    · rw [hs]; exact iff_of_true rfl a1
    · rw [if_neg hG, if_neg (fun hc => hM hc.1), if_neg (fun hc => hK hc.1), if_pos a1]
  · rcases le_or_lt v (2 ^ 20) with a2 | a2
    · have hG : ¬ v > 2 ^ 30 := not_lt.mpr (by linarith)
      have hM : ¬ v > 2 ^ 20 := not_lt.mpr a2
      have hs : Widget.unitSuffix v = "K" := by
        unfold Widget.unitSuffix
        rw [if_neg hG, if_neg hM, if_pos a1]
      refine ⟨hsplit, ?_, ?_, ?_, ?_, ?_⟩
      · rw [hs]; exact iff_of_false (by decide) hG
      · rw [hs]; exact iff_of_false (by decide) (fun hc => hM hc.1)
      · rw [hs]; exact iff_of_true rfl ⟨a1, a2⟩
      · rw [hs]; exact iff_of_false (by decide) (not_le.mpr a1)
      · rw [if_neg hG, if_neg (fun hc => hM hc.1), if_pos ⟨a1, a2⟩, if_neg (not_le.mpr a1)]
    · rcases le_or_lt v (2 ^ 30) with a3 | a3
      · have hG : ¬ v > 2 ^ 30 := not_lt.mpr a3
        have hs : Widget.unitSuffix v = "M" := by
          unfold Widget.unitSuffix
          rw [if_neg hG, if_pos a2]
        refine ⟨hsplit, ?_, ?_, ?_, ?_, ?_⟩
        · rw [hs]; exact iff_of_false (by decide) hG
        · rw [hs]; exact iff_of_true rfl ⟨a2, a3⟩
        · rw [hs]; exact iff_of_false (by decide) (fun hc => absurd a2 (not_lt.mpr hc.2))
        · rw [hs]; exact iff_of_false (by decide) (by linarith)
        · rw [if_neg hG, if_pos ⟨a2, a3⟩, if_neg (fun hc => absurd a2 (not_lt.mpr hc.2)),
            if_neg (show ¬ v ≤ 2 ^ 10 by linarith)]
      · have hs : Widget.unitSuffix v = "G" := by
          unfold Widget.unitSuffix
          rw [if_pos a3]
        refine ⟨hsplit, ?_, ?_, ?_, ?_, ?_⟩
        · rw [hs]; exact iff_of_true rfl a3
        · rw [hs]; exact iff_of_false (by decide) (fun hc => absurd a3 (not_lt.mpr hc.2))
        · rw [hs]; exact iff_of_false (by decide) (fun hc => absurd a3 (by linarith [hc.2]))
        · rw [hs]; exact iff_of_false (by decide) (by linarith)
        · rw [if_pos a3, if_neg (fun hc => absurd a3 (not_lt.mpr hc.2)),
            if_neg (fun hc => absurd a3 (show ¬ 2 ^ 30 < v by linarith [hc.2])),
            if_neg (show ¬ v ≤ 2 ^ 10 by linarith)]

/-! ### Claim C6 -/

unseal Rat.inv Rat.mul Rat.add Rat.sub in
/-- Counterexample to C6 as stated: `uvalue` on a fresh widget with value
`0` stores limit `0`, so `value ≥ limit` holds, yet the fill fraction is
`0` and no cell of the 26-cell track is filled (not all 26). -/
theorem fill_saturation_cex :
    ((Widget.uvalue Widget.initState 0).1).upper = some 0 ∧
    (Widget.uvalue Widget.initState 0).2 = 0 ∧
    Widget.fillCount ((Widget.uvalue Widget.initState 0).2) = 0 ∧
    Widget.fillCount ((Widget.uvalue Widget.initState 0).2) ≠ 26 := by decide

/-- C6 amended: with fill fraction `pct = value/limit` when `value > 0`
and `0` otherwise, cell `i` is filled iff `i/26 < pct`; for a fixed
*positive* limit the filled-cell count is non-decreasing in the value, and
all 26 cells are filled whenever `value ≥ limit > 0`. -/
theorem fill_cells_amended (L : ℚ) (hL : 0 < L) :
    (∀ (v : ℚ) (x : ℕ),
      Widget.fillCell (Widget.pct v L) x = true ↔ (x : ℚ) / 26 < Widget.pct v L) ∧
    (∀ v1 v2 : ℚ, v1 ≤ v2 →
      Widget.fillCount (Widget.pct v1 L) ≤ Widget.fillCount (Widget.pct v2 L)) ∧
    (∀ v : ℚ, L ≤ v → Widget.fillCount (Widget.pct v L) = 26) := by
  have pct_mono : ∀ v1 v2 : ℚ, v1 ≤ v2 → Widget.pct v1 L ≤ Widget.pct v2 L := by
    intro v1 v2 h
    unfold Widget.pct
    split_ifs with h1 h2
    · exact (div_le_div_iff_of_pos_right hL).mpr h
    · exact absurd (lt_of_lt_of_le h1 h) h2
    · positivity
    · exact le_refl 0
  refine ⟨fun v x => by simp [Widget.fillCell], ?_, ?_⟩
  · intro v1 v2 h
    unfold Widget.fillCount
    apply List.countP_mono_left
    intro x _ hpx
    simp only [Widget.fillCell, decide_eq_true_eq] at hpx ⊢
    linarith [pct_mono v1 v2 h]
  · intro v hv
    have hp : 1 ≤ Widget.pct v L := by
      unfold Widget.pct
      rw [if_pos (lt_of_lt_of_le hL hv), le_div_iff₀ hL]
      linarith
    have hall : ∀ x ∈ List.range 26, Widget.fillCell (Widget.pct v L) x := by
      intro x hx
      rw [List.mem_range] at hx
      have hx26 : (x : ℚ) < 26 := by exact_mod_cast hx
      simp only [Widget.fillCell, decide_eq_true_eq]
      have : (x : ℚ) / 26 < 1 := by rw [div_lt_one (by norm_num)]; exact hx26
      linarith
    unfold Widget.fillCount
    rw [List.countP_eq_length.mpr hall, List.length_range]

/-- Witness for the amended C6 at `L = 10`, `v = 12`. -/
theorem fill_cells_amended_witness :
    (0 : ℚ) < 10 ∧ (10 : ℚ) ≤ 12 ∧ Widget.fillCount (Widget.pct 12 10) = 26 :=
  ⟨by norm_num, by norm_num, (fill_cells_amended 10 (by norm_num)).2.2 12 (by norm_num)⟩

/-! ### Claim C7 -/

/-- C7: in `uvalue`/`lvalue`, when `value > 0` the preceding internal
limit call leaves a positive stored limit and the fill fraction is the
division by that limit; when `value ≤ 0` the guard yields `0` without
dividing. -/
theorem division_safety (s : Widget.State) (v : ℚ) :
    (0 < v → ∃ c, ((Widget.uvalue s v).1).upper = some c ∧ 0 < c ∧
      (Widget.uvalue s v).2 = v / c) ∧
    (v ≤ 0 → (Widget.uvalue s v).2 = 0) ∧
    (0 < v → ∃ c, ((Widget.lvalue s v).1).lower = some c ∧ 0 < c ∧
      (Widget.lvalue s v).2 = v / c) ∧
    (v ≤ 0 → (Widget.lvalue s v).2 = 0) := by
  refine ⟨?_, ?_, ?_, ?_⟩
  · intro hv
    rcases hs : s.upper with _ | c0
    · refine ⟨Widget.limitOf v, ?_, lt_of_lt_of_le hv (Widget.limit_ge v), ?_⟩
      · show (Widget.upper_limit s v).upper = _
        rw [Widget.upper_limit_of_none hs]
      · show Widget.pct v ((Widget.upper_limit s v).upper.getD 0) = v / Widget.limitOf v
        rw [Widget.upper_limit_of_none hs]
        simp [Widget.pct, hv]
    · by_cases hlt : c0 < v
      · refine ⟨Widget.limitOf v, ?_, lt_of_lt_of_le hv (Widget.limit_ge v), ?_⟩
        · show (Widget.upper_limit s v).upper = _
          rw [Widget.upper_limit_of_lt hs hlt]
        · show Widget.pct v ((Widget.upper_limit s v).upper.getD 0) = v / Widget.limitOf v
          rw [Widget.upper_limit_of_lt hs hlt]
          simp [Widget.pct, hv]
      · refine ⟨c0, ?_, lt_of_lt_of_le hv (not_lt.mp hlt), ?_⟩
        · show (Widget.upper_limit s v).upper = _
          rw [Widget.upper_limit_of_ge hs (not_lt.mp hlt)]
          exact hs
        · show Widget.pct v ((Widget.upper_limit s v).upper.getD 0) = v / c0
          rw [Widget.upper_limit_of_ge hs (not_lt.mp hlt), hs]
          simp [Widget.pct, hv]
  · intro hv
    show Widget.pct v ((Widget.upper_limit s v).upper.getD 0) = 0
    simp [Widget.pct, not_lt.mpr hv]
  · intro hv
    rcases hs : s.lower with _ | c0
    · refine ⟨Widget.limitOf v, ?_, lt_of_lt_of_le hv (Widget.limit_ge v), ?_⟩
      · show (Widget.lower_limit s v).lower = _
        rw [Widget.lower_limit_of_none hs]
      · show Widget.pct v ((Widget.lower_limit s v).lower.getD 0) = v / Widget.limitOf v
        rw [Widget.lower_limit_of_none hs]
        simp [Widget.pct, hv]
    · by_cases hlt : c0 < v
      · refine ⟨Widget.limitOf v, ?_, lt_of_lt_of_le hv (Widget.limit_ge v), ?_⟩
        · show (Widget.lower_limit s v).lower = _
          rw [Widget.lower_limit_of_lt hs hlt]
        · show Widget.pct v ((Widget.lower_limit s v).lower.getD 0) = v / Widget.limitOf v
          rw [Widget.lower_limit_of_lt hs hlt]
          simp [Widget.pct, hv]
      · refine ⟨c0, ?_, lt_of_lt_of_le hv (not_lt.mp hlt), ?_⟩
        · show (Widget.lower_limit s v).lower = _
          rw [Widget.lower_limit_of_ge hs (not_lt.mp hlt)]
          exact hs
        · show Widget.pct v ((Widget.lower_limit s v).lower.getD 0) = v / c0
          rw [Widget.lower_limit_of_ge hs (not_lt.mp hlt), hs]
          simp [Widget.pct, hv]
  · intro hv
    show Widget.pct v ((Widget.lower_limit s v).lower.getD 0) = 0
    simp [Widget.pct, not_lt.mpr hv]

/-- Witness for C7 at the fresh widget state and `value = 5`. -/
theorem division_safety_witness :
    (0 : ℚ) < 5 ∧ ∃ c, ((Widget.uvalue Widget.initState 5).1).upper = some c ∧
      0 < c ∧ (Widget.uvalue Widget.initState 5).2 = 5 / c :=
  ⟨by norm_num, (division_safety Widget.initState 5).1 (by norm_num)⟩

/-! ### Claim C8 -/

/-- C8: starting from a fresh metric state, the first tick (timestamp
`t1`) with a present counter value `c1` (in seconds; the raw reading is
`c1 * 10^9` nanoseconds) reports rate `0` and stores `c1` as the
baseline; the second tick (timestamp `t2`) with counter value `c2`
reports `(c2 - c1) / (t2 - t1)` and stores `c2`. -/
theorem cpu_rate_two_ticks (t1 t2 c1 c2 : ℚ) (hne : t2 - t1 ≠ 0) :
    OperatingSystemMetrics.process_cpu_time
        ⟨Metric.refreshStamps ⟨none, none⟩ t1, none⟩ (some (c1 * 1000000000)) =
      some (some 0, ⟨Metric.refreshStamps ⟨none, none⟩ t1, some c1⟩) ∧
    OperatingSystemMetrics.process_cpu_time
        ⟨Metric.refreshStamps (Metric.refreshStamps ⟨none, none⟩ t1) t2, some c1⟩
        (some (c2 * 1000000000)) =
      some (some ((c2 - c1) / (t2 - t1)),
        ⟨Metric.refreshStamps (Metric.refreshStamps ⟨none, none⟩ t1) t2, some c2⟩) := by
  have h9 : (1000000000 : ℚ) ≠ 0 := by norm_num
  constructor
  · unfold OperatingSystemMetrics.process_cpu_time
    dsimp only
    rw [mul_div_cancel_right₀ c1 h9]
  · unfold OperatingSystemMetrics.process_cpu_time
    dsimp only [Metric.refreshStamps, Metric.timedelta]
    rw [if_neg hne, mul_div_cancel_right₀ c2 h9]

/-- Witness for C8 at `t1 = 0`, `t2 = 1`, `c1 = 2`, `c2 = 5`. -/
theorem cpu_rate_two_ticks_witness :
    (1 : ℚ) - 0 ≠ 0 ∧
    OperatingSystemMetrics.process_cpu_time
        ⟨Metric.refreshStamps (Metric.refreshStamps ⟨none, none⟩ 0) 1, some 2⟩
        (some (5 * 1000000000)) =
      some (some ((5 - 2) / (1 - 0)),
        ⟨Metric.refreshStamps (Metric.refreshStamps ⟨none, none⟩ 0) 1, some 5⟩) :=
  ⟨by norm_num, (cpu_rate_two_ticks 0 1 2 5 (by norm_num)).2⟩

/-! ### Claim C9 -/

lemma digLoop_none (ks : List String) : Metric.digLoop none ks = .ok none := by
  induction ks with
  | nil => rfl
  | cons k rest ih => simpa [Metric.digLoop] using ih

lemma digLoop_append (v : Option JVal) (ks1 ks2 : List String) :
    Metric.digLoop v (ks1 ++ ks2) =
      (Metric.digLoop v ks1).bind (fun v' => Metric.digLoop v' ks2) := by
  induction ks1 generalizing v with
  | nil => rfl
  | cons k rest ih =>
    cases v with
    | none => simpa [Metric.digLoop] using ih none
    | some jv =>
      cases jv with
      | num q => rfl
      | str s => rfl
      | obj es => simpa [Metric.digLoop] using ih (lookupKey es k)

/-- C9: whenever digging along a key path reaches an object in which the
next key is missing, `Metric.value` returns `.ok none` (absent, not a
failure), and all subsequent keys are ignored. -/
theorem value_missing_key (metrics : List (String × JVal)) (ks1 : List String)
    (k : String) (ks2 : List String) (es : List (String × JVal))
    (h1 : Metric.value metrics ks1 = .ok (some (JVal.obj es)))
    (h2 : lookupKey es k = none) :
    Metric.value metrics (ks1 ++ k :: ks2) = .ok none := by
  unfold Metric.value at h1 ⊢
  rw [digLoop_append, h1]
  show Metric.digLoop (some (JVal.obj es)) (k :: ks2) = .ok none
  show Metric.digLoop (lookupKey es k) ks2 = .ok none
  rw [h2]
  exact digLoop_none ks2

/-- Witness for C9: looking up path `["a", "x", "b"]` where `"x"` is
missing below `"a"` yields absent. -/
theorem value_missing_key_witness :
    Metric.value [("value", JVal.obj [("a", JVal.obj [("b", JVal.num 1)])])] ["a"] =
        Except.ok (some (JVal.obj [("b", JVal.num 1)])) ∧
    lookupKey [("b", JVal.num 1)] "x" = none ∧
    Metric.value [("value", JVal.obj [("a", JVal.obj [("b", JVal.num 1)])])]
        (["a"] ++ "x" :: ["b"]) = Except.ok none :=
  ⟨rfl, rfl,
    value_missing_key [("value", JVal.obj [("a", JVal.obj [("b", JVal.num 1)])])]
      ["a"] "x" ["b"] [("b", JVal.num 1)] rfl rfl⟩

end PuppetserverMetrics
